import Mathlib

/-!
Verification of the Planner/Executor multi-agent orchestration loop
(`src/LangGraph/src`: `state.py`, `nodes.py`, `graph.py`, `agent.py`).

The embedding translates the Python source directly:
- `AgentState` mirrors the `TypedDict` in `state.py`; `current_step_index`
  is modelled as `Nat` (the data model declares it an integer ≥ 0, and every
  write in the source is `0` or `i + 1`).
- Partial node updates are records of `Option` fields; `applyUpdate` is the
  LangGraph merge induced by `state.py`: `messages` carries the
  `add_messages` reducer (append for the fresh, id-less messages this
  program produces), every other field is replaced when present and left
  untouched when absent.
- The LLM call is an opaque generation capability `gen : List Message →
  String`, applied to the exact prompt the node builds.
- The compiled graph of `graph.py` (START → Supervisor, conditional edges on
  `next_step`, Planner/Executor → Supervisor) is the loop `runLoop` /
  `stateAt`: each iteration merges the Supervisor update, stops on
  "FINISH", otherwise merges the routed agent's update and repeats.
-/

namespace PlannerExecutor

/-- A langchain-style message: role (class), content, optional `name` tag. -/
structure Message where
  role : String
  content : String
  name : Option String
deriving DecidableEq, Repr

/-- `AgentState` from `state.py`. -/
structure AgentState where
  messages : List Message
  user_goal : String
  plan : List String
  current_step_index : Nat
  execution_log : List String
  next_step : String
  status : String
deriving DecidableEq, Repr

/-- A partial state update as returned by a node: only the fields present in
the returned dict are set. -/
structure StateUpdate where
  messages : Option (List Message) := none
  user_goal : Option String := none
  plan : Option (List String) := none
  current_step_index : Option Nat := none
  execution_log : Option (List String) := none
  next_step : Option String := none
  status : Option String := none
deriving DecidableEq, Repr

/-- The LangGraph merge of a node's partial update into the state, as
determined by `state.py`: `messages` is annotated with `add_messages`
(appends the returned messages; this program only ever returns fresh
messages without ids), every other field is a plain channel (replaced when
present in the update, untouched when absent). -/
def applyUpdate (s : AgentState) (u : StateUpdate) : AgentState where
  messages := match u.messages with
    | none => s.messages
    | some ms => s.messages ++ ms
  user_goal := u.user_goal.getD s.user_goal
  plan := u.plan.getD s.plan
  current_step_index := u.current_step_index.getD s.current_step_index
  execution_log := u.execution_log.getD s.execution_log
  next_step := u.next_step.getD s.next_step
  status := u.status.getD s.status

/-- Python truthiness of `last_name` in `supervisor_node`:
`not last_name` is true for `None` and for the empty string. -/
def nameFalsy : Option String → Bool
  | none => true
  | some t => t = ""

/-- `last_name` in `supervisor_node`: the `name` of the last message, `None`
when there are no messages or the message has no name. -/
def lastName (s : AgentState) : Option String :=
  s.messages.getLast?.bind Message.name

/-- The routing decision of `supervisor_node` (`nodes.py` lines 54-71). -/
def supervisor_next (s : AgentState) : String :=
  if nameFalsy (lastName s) then "Planner"
  else if lastName s = some "Planner" then "Executor"
  else if lastName s = some "Executor" then
    if s.current_step_index < s.plan.length then "Executor" else "FINISH"
  else "FINISH"

/-- `supervisor_node` (`nodes.py`): returns
`{"next_step": next_step, "status": "supervising"}`. -/
def supervisor_node (s : AgentState) : StateUpdate where
  next_step := some (supervisor_next s)
  status := some "supervising"

/-- Split a character list at every occurrence of `sep` (Python
`text.splitlines()` for the newline-only line breaks this program meets,
modulo trailing blank lines, which `_parse_plan` discards anyway). -/
def charsSplit (sep : Char) : List Char → List (List Char)
  | [] => [[]]
  | c :: cs =>
    if c = sep then [] :: charsSplit sep cs
    else match charsSplit sep cs with
      | [] => [[c]]
      | h :: t => (c :: h) :: t

/-- Python `str.strip()`: drop leading and trailing whitespace. -/
def trimChars (cs : List Char) : List Char :=
  ((cs.dropWhile Char.isWhitespace).reverse.dropWhile Char.isWhitespace).reverse

/-- Python `line.startswith(p)` on character lists. -/
def leadsWith : List Char → List Char → Bool
  | [], _ => true
  | _ :: _, [] => false
  | p :: ps, c :: cs => p = c && leadsWith ps cs

/-- One pass of the marker-stripping loop body in `_parse_plan`:
`if line.startswith(m): line = line[len(m):].strip()`. -/
def stripMarker (line m : List Char) : List Char :=
  if leadsWith m line then trimChars (line.drop m.length) else line

/-- Python `str.isdigit` restricted to the ASCII digits this program meets. -/
def isDigits (t : List Char) : Bool :=
  !t.isEmpty && t.all Char.isDigit

/-- Python `line.split(sep, 1)`: the part before the first occurrence of
`sep` and the rest, or `none` when `sep` does not occur. -/
def splitOnce (sep : List Char) : List Char → Option (List Char × List Char)
  | [] => none
  | c :: cs =>
    if leadsWith sep (c :: cs) then some ([], (c :: cs).drop sep.length)
    else match splitOnce sep cs with
      | none => none
      | some (pre, post) => some (c :: pre, post)

/-- The numbered-item handling in `_parse_plan`:
`if ". " in line and line.split(". ", 1)[0].isdigit(): line = line.split(". ", 1)[1].strip()`. -/
def stripNumber (line : List Char) : List Char :=
  match splitOnce ['.', ' '] line with
  | some (pre, rest) => if isDigits pre then trimChars rest else line
  | none => line

/-- The whole per-line cleanup of `_parse_plan`: the three bullet markers in
order, then the numbered-item split. -/
def cleanLine (line : List Char) : List Char :=
  stripNumber (stripMarker (stripMarker (stripMarker line ['-', ' ']) ['*', ' ']) ['•', ' '])

/-- `_parse_plan` (`nodes.py` lines 24-38): split into lines, strip each,
skip blank lines, clean markers and numbering, collect. -/
def _parse_plan (text : String) : List String :=
  (((((charsSplit '\n' text.data).map trimChars).filter
      (fun l => !l.isEmpty)).map cleanLine).map fun cs => String.mk cs)

/-- The fixed fallback plan of `planner_node` (`nodes.py` lines 120-125). -/
def fallback_plan : List String :=
  [ "Clarify the goal and constraints.",
    "Draft a minimal implementation plan.",
    "Implement the plan in a step-by-step fashion.",
    "Verify that the goal has been achieved." ]

/-- Goal resolution at the top of `planner_node`: use `user_goal` unless
falsy, else the content of the first message, else the fixed default. -/
def resolve_goal (s : AgentState) : String :=
  if s.user_goal ≠ "" then s.user_goal
  else match s.messages.head? with
    | some m => m.content
    | none => "Set up a basic ML experiment tracking workflow."

/-- The system instruction of the Planner prompt (`nodes.py` lines 98-105). -/
def planner_system_text : String :=
  "You are an MLOps planning assistant. Given a high-level goal, produce a short ordered list of concrete steps to achieve it. Focus on practical, implementation-oriented actions suitable for a small lab environment."

/-- The two-message prompt `planner_node` sends to the LLM. -/
def planner_messages (goal : String) : List Message :=
  [ ⟨"system", planner_system_text, none⟩,
    ⟨"human", "User goal: " ++ goal ++ "\n\nRespond with 4-8 steps as a numbered list.", none⟩ ]

/-- `planner_node` (`nodes.py` lines 81-137), with the LLM call abstracted
as `gen` applied to the prompt the node builds. -/
def planner_node (gen : List Message → String) (s : AgentState) : StateUpdate :=
  let user_goal := resolve_goal s
  let raw_plan := gen (planner_messages user_goal)
  let steps := _parse_plan raw_plan
  let steps := if steps = [] then fallback_plan else steps
  { messages := some [⟨"human", raw_plan, some "Planner"⟩],
    plan := some steps,
    current_step_index := some 0,
    status := some "planning_done",
    user_goal := some user_goal }

/-- The system instruction of the Executor prompt (`nodes.py` lines 160-166). -/
def executor_system_text : String :=
  "You are an MLOps execution assistant. For the given plan step, describe briefly (3-5 sentences) how you would carry it out in practice, including any relevant tools, commands, or configuration considerations."

/-- The two-message prompt `executor_node` sends to the LLM for a step. -/
def executor_messages (goal step_text : String) : List Message :=
  [ ⟨"system", executor_system_text, none⟩,
    ⟨"human", "Overall user goal: " ++ goal ++ "\nCurrent step: " ++ step_text, none⟩ ]

/-- `step_text = plan[current_step_index]` in `executor_node` (only read
under the guard, which ensures the index is in range). -/
def exec_step_text (s : AgentState) : String :=
  s.plan.getD s.current_step_index ""

/-- The `explanation` string `executor_node` obtains from the LLM. -/
def exec_expl (gen : List Message → String) (s : AgentState) : String :=
  gen (executor_messages s.user_goal (exec_step_text s))

/-- The `entry` string `executor_node` appends to the log:
`f"Step {current_index + 1}: {step_text}\n{explanation}"`. -/
def exec_entry (gen : List Message → String) (s : AgentState) : String :=
  "Step " ++ toString (s.current_step_index + 1) ++ ": " ++ exec_step_text s
    ++ "\n" ++ exec_expl gen s

/-- The guard update `{"status": "nothing_to_execute"}` of `executor_node`. -/
def nothing_update : StateUpdate where
  status := some "nothing_to_execute"

/-- `executor_node` (`nodes.py` lines 140-192): guard first, else execute
the current step, append a log entry to a copy of the full log, advance the
index. -/
def executor_node (gen : List Message → String) (s : AgentState) : StateUpdate :=
  if s.plan = [] ∨ s.current_step_index ≥ s.plan.length then
    nothing_update
  else
    { messages := some [⟨"human", exec_expl gen s, some "Executor"⟩],
      execution_log := some (s.execution_log ++ [exec_entry gen s]),
      current_step_index := some (s.current_step_index + 1),
      status := some "executing" }

/-- The initial state built by `run_once` in `agent.py`. -/
def initial_state (goal : String) : AgentState where
  messages := [⟨"human", goal, none⟩]
  user_goal := goal
  plan := []
  current_step_index := 0
  execution_log := []
  next_step := ""
  status := "created"

/-- Merge the Supervisor's update (every graph iteration starts with this). -/
def supStep (s : AgentState) : AgentState :=
  applyUpdate s (supervisor_node s)

/-- Follow the conditional edge out of the Supervisor: merge the routed
agent's update ("FINISH" is handled by the caller; the conditional-edge map
of `graph.py` has no other keys). -/
def agentStep (gen : List Message → String) (s : AgentState) : AgentState :=
  if s.next_step = "Planner" then applyUpdate s (planner_node gen s)
  else if s.next_step = "Executor" then applyUpdate s (executor_node gen s)
  else s

/-- One full turn of the loop: Supervisor merge, then (unless the decision
is "FINISH") the routed agent's merge. -/
def turn (gen : List Message → String) (s : AgentState) : AgentState :=
  let s' := supStep s
  if s'.next_step = "FINISH" then s' else agentStep gen s'

/-- The graph run with fuel: returns the final state and the number of
Supervisor decisions taken, or `none` if the fuel runs out first. -/
def runLoop (gen : List Message → String) : Nat → AgentState → Option (AgentState × Nat)
  | 0, _ => none
  | fuel + 1, s =>
    let s' := supStep s
    if s'.next_step = "FINISH" then some (s', 1)
    else match runLoop gen fuel (agentStep gen s') with
      | none => none
      | some (f, n) => some (f, n + 1)

/-- The state after `n` turns of a run on `goal` (absorbing once the
Supervisor has emitted "FINISH"): the states reachable during the run. -/
def stateAt (gen : List Message → String) (goal : String) : Nat → AgentState
  | 0 => initial_state goal
  | n + 1 =>
    let s := stateAt gen goal n
    if s.next_step = "FINISH" then s else turn gen s

/-- The plan the Planner turn of a run on `goal` produces. -/
def plannedSteps (gen : List Message → String) (goal : String) : List String :=
  let steps := _parse_plan (gen (planner_messages goal))
  if steps = [] then fallback_plan else steps

/-- The run invariant: the step index never exceeds the plan length, the
log has one entry per executed step, and while no agent has spoken yet
(last message untagged) nothing has been executed. -/
def Inv (s : AgentState) : Prop :=
  s.current_step_index ≤ s.plan.length ∧
  s.execution_log.length = s.current_step_index ∧
  (nameFalsy (lastName s) = true → s.current_step_index = 0 ∧ s.execution_log = [])

/-- The mock generation capability of the end-to-end scenario: the plan text
for the planning call (recognised by the Planner's system instruction),
"Done." for each step call. -/
def mockGenC5 (ms : List Message) : String :=
  if ms.head? = some ⟨"system", planner_system_text, none⟩ then
    "1. Install agent\n2. Configure dashboards"
  else "Done."

/-- A generation capability returning empty text (parses to no steps). -/
def genEmpty : List Message → String := fun _ => ""

/-- A generation capability returning fixed text "Done.". -/
def genDone : List Message → String := fun _ => "Done."

/-- Concrete state for the merge counterexample: one prior log entry. -/
def mergeCexState : AgentState where
  messages := []
  user_goal := "g"
  plan := ["p1"]
  current_step_index := 1
  execution_log := ["a"]
  next_step := ""
  status := "created"

/-- Concrete update for the merge counterexample: the full accumulated log,
as the Executor returns it. -/
def mergeCexUpdate : StateUpdate where
  execution_log := some ["a", "b"]

/-- Concrete state on which the Executor still has a step to run (for
witnessing the per-turn log growth). -/
def execCexState : AgentState where
  messages := []
  user_goal := "g"
  plan := ["p1"]
  current_step_index := 0
  execution_log := ["a"]
  next_step := ""
  status := "created"

/-- The routing rule exactly as the spec words it (first match wins):
empty messages or no author-tag → Planner; tagged Planner → Executor;
tagged Executor → Executor iff steps remain, else Finish; any other
tag → Finish. -/
def routeSpecRule (s : AgentState) : String :=
  if s.messages = [] ∨ nameFalsy (s.messages.getLast?.bind Message.name) then "Planner"
  else if s.messages.getLast?.bind Message.name = some "Planner" then "Executor"
  else if s.messages.getLast?.bind Message.name = some "Executor" then
    if s.current_step_index < s.plan.length then "Executor" else "FINISH"
  else "FINISH"

/-! ### Helper lemmas: projections of merged states -/

theorem lastName_eq (s : AgentState) :
    lastName s = s.messages.getLast?.bind Message.name := rfl

@[simp] theorem supStep_messages (s : AgentState) : (supStep s).messages = s.messages := rfl

@[simp] theorem supStep_user_goal (s : AgentState) : (supStep s).user_goal = s.user_goal := rfl

@[simp] theorem supStep_plan (s : AgentState) : (supStep s).plan = s.plan := rfl

@[simp] theorem supStep_index (s : AgentState) :
    (supStep s).current_step_index = s.current_step_index := rfl

@[simp] theorem supStep_log (s : AgentState) :
    (supStep s).execution_log = s.execution_log := rfl

@[simp] theorem supStep_next (s : AgentState) :
    (supStep s).next_step = supervisor_next s := rfl

@[simp] theorem supStep_status (s : AgentState) : (supStep s).status = "supervising" := rfl

theorem supStep_eq (s : AgentState) :
    supStep s = { s with next_step := supervisor_next s, status := "supervising" } := rfl

@[simp] theorem lastName_supStep (s : AgentState) : lastName (supStep s) = lastName s := rfl

@[simp] theorem supervisor_next_supStep (s : AgentState) :
    supervisor_next (supStep s) = supervisor_next s := rfl

@[simp] theorem resolve_goal_supStep (s : AgentState) :
    resolve_goal (supStep s) = resolve_goal s := rfl

theorem planner_node_supStep (gen : List Message → String) (s : AgentState) :
    planner_node gen (supStep s) = planner_node gen s := rfl

theorem executor_node_supStep (gen : List Message → String) (s : AgentState) :
    executor_node gen (supStep s) = executor_node gen s := rfl

@[simp] theorem exec_expl_supStep (gen : List Message → String) (s : AgentState) :
    exec_expl gen (supStep s) = exec_expl gen s := rfl

@[simp] theorem exec_entry_supStep (gen : List Message → String) (s : AgentState) :
    exec_entry gen (supStep s) = exec_entry gen s := rfl

theorem merge_planner (gen : List Message → String) (s : AgentState) :
    applyUpdate s (planner_node gen s) =
      { messages := s.messages ++
          [⟨"human", gen (planner_messages (resolve_goal s)), some "Planner"⟩],
        user_goal := resolve_goal s,
        plan := plannedSteps gen (resolve_goal s),
        current_step_index := 0,
        execution_log := s.execution_log,
        next_step := s.next_step,
        status := "planning_done" } := rfl

theorem executor_node_guard (gen : List Message → String) (s : AgentState)
    (h : s.plan = [] ∨ s.current_step_index ≥ s.plan.length) :
    executor_node gen s = nothing_update := by
  unfold executor_node
  rw [if_pos h]

theorem executor_node_run (gen : List Message → String) (s : AgentState)
    (h : ¬(s.plan = [] ∨ s.current_step_index ≥ s.plan.length)) :
    executor_node gen s =
      { messages := some [⟨"human", exec_expl gen s, some "Executor"⟩],
        execution_log := some (s.execution_log ++ [exec_entry gen s]),
        current_step_index := some (s.current_step_index + 1),
        status := some "executing" } := by
  unfold executor_node
  rw [if_neg h]

theorem merge_executor_run (gen : List Message → String) (s : AgentState)
    (h : ¬(s.plan = [] ∨ s.current_step_index ≥ s.plan.length)) :
    applyUpdate s (executor_node gen s) =
      { messages := s.messages ++ [⟨"human", exec_expl gen s, some "Executor"⟩],
        user_goal := s.user_goal,
        plan := s.plan,
        current_step_index := s.current_step_index + 1,
        execution_log := s.execution_log ++ [exec_entry gen s],
        next_step := s.next_step,
        status := "executing" } := by
  rw [executor_node_run gen s h]
  rfl

theorem merge_executor_guard (gen : List Message → String) (s : AgentState)
    (h : s.plan = [] ∨ s.current_step_index ≥ s.plan.length) :
    applyUpdate s (executor_node gen s) = { s with status := "nothing_to_execute" } := by
  rw [executor_node_guard gen s h]
  rfl

/-! ### Helper lemmas: the routing function -/

theorem route_cases (s : AgentState) :
    supervisor_next s = "Planner" ∨ supervisor_next s = "Executor" ∨
      supervisor_next s = "FINISH" := by
  unfold supervisor_next
  split_ifs <;> simp

theorem route_planner_iff (s : AgentState) :
    supervisor_next s = "Planner" ↔ nameFalsy (lastName s) = true := by
  unfold supervisor_next
  split_ifs with h1 h2 h3 h4 <;> simp_all

theorem route_after_planner (s : AgentState) (h : lastName s = some "Planner") :
    supervisor_next s = "Executor" := by
  unfold supervisor_next
  rw [h]
  simp [nameFalsy]

theorem route_after_executor_more (s : AgentState) (h : lastName s = some "Executor")
    (hlt : s.current_step_index < s.plan.length) :
    supervisor_next s = "Executor" := by
  unfold supervisor_next
  rw [h]
  simp [nameFalsy, hlt]

theorem route_after_executor_done (s : AgentState) (h : lastName s = some "Executor")
    (hge : ¬s.current_step_index < s.plan.length) :
    supervisor_next s = "FINISH" := by
  unfold supervisor_next
  rw [h]
  simp [nameFalsy, hge]

theorem route_executor_tagged (s : AgentState) (h : supervisor_next s = "Executor") :
    nameFalsy (lastName s) = false := by
  by_contra hc
  have : supervisor_next s = "Planner" := (route_planner_iff s).2 (by simpa using hc)
  simp [h] at this

theorem route_finish_tagged (s : AgentState) (h : supervisor_next s = "FINISH") :
    nameFalsy (lastName s) = false := by
  by_contra hc
  have : supervisor_next s = "Planner" := (route_planner_iff s).2 (by simpa using hc)
  simp [h] at this

/-! ### Helper lemmas: one turn of the loop -/

theorem turn_eq (gen : List Message → String) (s : AgentState) :
    turn gen s =
      if supervisor_next s = "FINISH" then supStep s else agentStep gen (supStep s) := rfl

theorem agentStep_supStep (gen : List Message → String) (s : AgentState) :
    agentStep gen (supStep s) =
      if supervisor_next s = "Planner" then applyUpdate (supStep s) (planner_node gen (supStep s))
      else if supervisor_next s = "Executor" then
        applyUpdate (supStep s) (executor_node gen (supStep s))
      else supStep s := rfl

theorem turn_finish (gen : List Message → String) (s : AgentState)
    (h : supervisor_next s = "FINISH") : turn gen s = supStep s := by
  rw [turn_eq, if_pos h]

theorem turn_planner (gen : List Message → String) (s : AgentState)
    (h : supervisor_next s = "Planner") :
    turn gen s = applyUpdate (supStep s) (planner_node gen (supStep s)) := by
  rw [turn_eq, if_neg (by simp [h]), agentStep_supStep, if_pos h]

theorem turn_executor (gen : List Message → String) (s : AgentState)
    (h : supervisor_next s = "Executor") :
    turn gen s = applyUpdate (supStep s) (executor_node gen (supStep s)) := by
  rw [turn_eq, if_neg (by simp [h]), agentStep_supStep, if_neg (by simp [h]), if_pos h]

theorem turn_planner_shape (gen : List Message → String) (s : AgentState)
    (h : supervisor_next s = "Planner") :
    turn gen s =
      { messages := s.messages ++
          [⟨"human", gen (planner_messages (resolve_goal s)), some "Planner"⟩],
        user_goal := resolve_goal s,
        plan := plannedSteps gen (resolve_goal s),
        current_step_index := 0,
        execution_log := s.execution_log,
        next_step := "Planner",
        status := "planning_done" } := by
  rw [turn_planner gen s h, merge_planner gen (supStep s)]
  simp [h]

theorem turn_executor_run_shape (gen : List Message → String) (s : AgentState)
    (h : supervisor_next s = "Executor")
    (hg : ¬(s.plan = [] ∨ s.current_step_index ≥ s.plan.length)) :
    turn gen s =
      { messages := s.messages ++ [⟨"human", exec_expl gen s, some "Executor"⟩],
        user_goal := s.user_goal,
        plan := s.plan,
        current_step_index := s.current_step_index + 1,
        execution_log := s.execution_log ++ [exec_entry gen s],
        next_step := "Executor",
        status := "executing" } := by
  rw [turn_executor gen s h, merge_executor_run gen (supStep s) (by simpa using hg)]
  simp [h]

theorem turn_executor_guard_shape (gen : List Message → String) (s : AgentState)
    (h : supervisor_next s = "Executor")
    (hg : s.plan = [] ∨ s.current_step_index ≥ s.plan.length) :
    turn gen s = { s with next_step := "Executor", status := "nothing_to_execute" } := by
  rw [turn_executor gen s h, merge_executor_guard gen (supStep s) (by simpa using hg)]
  rw [supStep_eq]
  simp [h]

theorem turn_finish_shape (gen : List Message → String) (s : AgentState)
    (h : supervisor_next s = "FINISH") :
    turn gen s = { s with next_step := "FINISH", status := "supervising" } := by
  rw [turn_finish gen s h, supStep_eq, h]

/-! ### Helper lemmas: the run loop -/

theorem runLoop_succ (gen : List Message → String) (fuel : Nat) (s : AgentState) :
    runLoop gen (fuel + 1) s =
      if supervisor_next s = "FINISH" then some (supStep s, 1)
      else match runLoop gen fuel (agentStep gen (supStep s)) with
        | none => none
        | some (f, n) => some (f, n + 1) := rfl

theorem runLoop_succ_finish (gen : List Message → String) (fuel : Nat) (s : AgentState)
    (h : supervisor_next s = "FINISH") :
    runLoop gen (fuel + 1) s = some (supStep s, 1) := by
  rw [runLoop_succ, if_pos h]

theorem runLoop_succ_cont (gen : List Message → String) (fuel : Nat) (s : AgentState)
    (h : supervisor_next s ≠ "FINISH") :
    runLoop gen (fuel + 1) s =
      match runLoop gen fuel (turn gen s) with
      | none => none
      | some (f, n) => some (f, n + 1) := by
  rw [runLoop_succ, if_neg h, turn_eq, if_neg h]

/-! ### Helper lemmas: the run invariant -/

theorem stateAt_succ (gen : List Message → String) (goal : String) (n : Nat) :
    stateAt gen goal (n + 1) =
      if (stateAt gen goal n).next_step = "FINISH" then stateAt gen goal n
      else turn gen (stateAt gen goal n) := rfl

theorem plannedSteps_ne_nil (gen : List Message → String) (goal : String) :
    plannedSteps gen goal ≠ [] := by
  unfold plannedSteps
  by_cases h : _parse_plan (gen (planner_messages goal)) = []
  · simp [h, fallback_plan]
  · simp [h]

theorem resolve_goal_initial (goal : String) :
    resolve_goal (initial_state goal) = goal := by
  by_cases h : goal = "" <;> simp [resolve_goal, initial_state, h]

theorem lastName_concat (s : AgentState) (ms : List Message) (m : Message) :
    s.messages = ms ++ [m] → lastName s = m.name := by
  intro h
  rw [lastName_eq, h, List.getLast?_concat]
  rfl

theorem Inv_initial (goal : String) : Inv (initial_state goal) := by
  refine ⟨Nat.le_refl 0, rfl, fun _ => ⟨rfl, rfl⟩⟩

theorem Inv_turn (gen : List Message → String) (s : AgentState) (h : Inv s) :
    Inv (turn gen s) ∧ s.current_step_index ≤ (turn gen s).current_step_index := by
  obtain ⟨hle, hlog, hfresh⟩ := h
  rcases route_cases s with hp | he | hf
  · -- Planner turn: only taken while the last message is untagged
    obtain ⟨hidx0, hlog0⟩ := hfresh ((route_planner_iff s).1 hp)
    rw [turn_planner_shape gen s hp]
    refine ⟨⟨Nat.zero_le _, ?_, ?_⟩, ?_⟩
    · simp [hlog0]
    · intro hab
      rw [lastName_concat _ s.messages _ rfl] at hab
      simp [nameFalsy] at hab
    · simp [hidx0]
  · -- Executor turn
    by_cases hg : s.plan = [] ∨ s.current_step_index ≥ s.plan.length
    · rw [turn_executor_guard_shape gen s he hg]
      refine ⟨⟨hle, hlog, fun hab => ?_⟩, Nat.le_refl _⟩
      have : nameFalsy (lastName s) = false := route_executor_tagged s he
      rw [show lastName { s with next_step := "Executor", status := "nothing_to_execute" }
          = lastName s from rfl] at hab
      simp [this] at hab
    · rw [turn_executor_run_shape gen s he hg]
      push_neg at hg
      refine ⟨⟨hg.2, ?_, ?_⟩, Nat.le_succ _⟩
      · simp [hlog]
      · intro hab
        rw [lastName_concat _ s.messages _ rfl] at hab
        simp [nameFalsy] at hab
  · -- FINISH: the Supervisor update alone
    rw [turn_finish_shape gen s hf]
    refine ⟨⟨hle, hlog, fun hab => ?_⟩, Nat.le_refl _⟩
    have : nameFalsy (lastName s) = false := route_finish_tagged s hf
    rw [show lastName { s with next_step := "FINISH", status := "supervising" }
        = lastName s from rfl] at hab
    simp [this] at hab

theorem Inv_stateAt (gen : List Message → String) (goal : String) :
    ∀ n, Inv (stateAt gen goal n) := by
  intro n
  induction n with
  | zero => exact Inv_initial goal
  | succ k ih =>
    rw [stateAt_succ]
    by_cases hc : (stateAt gen goal k).next_step = "FINISH"
    · rw [if_pos hc]; exact ih
    · rw [if_neg hc]; exact (Inv_turn gen _ ih).1

theorem stateAt_mono (gen : List Message → String) (goal : String) (n : Nat) :
    (stateAt gen goal n).current_step_index ≤ (stateAt gen goal (n + 1)).current_step_index := by
  rw [stateAt_succ]
  by_cases hc : (stateAt gen goal n).next_step = "FINISH"
  · rw [if_pos hc]
  · rw [if_neg hc]; exact (Inv_turn gen _ (Inv_stateAt gen goal n)).2

theorem turn_tagged (gen : List Message → String) (s : AgentState) :
    nameFalsy (lastName (turn gen s)) = false := by
  rcases route_cases s with hp | he | hf
  · rw [turn_planner_shape gen s hp, lastName_concat _ s.messages _ rfl]
    simp [nameFalsy]
  · by_cases hg : s.plan = [] ∨ s.current_step_index ≥ s.plan.length
    · rw [turn_executor_guard_shape gen s he hg]
      rw [show lastName { s with next_step := "Executor", status := "nothing_to_execute" }
          = lastName s from rfl]
      exact route_executor_tagged s he
    · rw [turn_executor_run_shape gen s he hg, lastName_concat _ s.messages _ rfl]
      simp [nameFalsy]
  · rw [turn_finish_shape gen s hf]
    rw [show lastName { s with next_step := "FINISH", status := "supervising" }
        = lastName s from rfl]
    exact route_finish_tagged s hf

theorem turn_plan_of_tagged (gen : List Message → String) (s : AgentState)
    (h : nameFalsy (lastName s) = false) : (turn gen s).plan = s.plan := by
  rcases route_cases s with hp | he | hf
  · rw [(route_planner_iff s).1 hp] at h
    cases h
  · by_cases hg : s.plan = [] ∨ s.current_step_index ≥ s.plan.length
    · rw [turn_executor_guard_shape gen s he hg]
    · rw [turn_executor_run_shape gen s he hg]
  · rw [turn_finish_shape gen s hf]

theorem stateAt_tagged (gen : List Message → String) (goal : String) :
    ∀ n, 1 ≤ n → nameFalsy (lastName (stateAt gen goal n)) = false := by
  intro n
  induction n with
  | zero => omega
  | succ k ih =>
    intro _
    rw [stateAt_succ]
    by_cases hc : (stateAt gen goal k).next_step = "FINISH"
    · rw [if_pos hc]
      match k, hc with
      | 0, hc => simp [stateAt, initial_state] at hc
      | k' + 1, hc => exact ih (by omega)
    · rw [if_neg hc]
      exact turn_tagged gen _

/-! ### Helper lemmas: termination of the run -/

theorem lastName_initial (goal : String) : lastName (initial_state goal) = none := rfl

theorem route_initial (goal : String) :
    supervisor_next (initial_state goal) = "Planner" := rfl

/-- Once the last message is tagged "Executor" and `d` steps remain, the
loop takes exactly `d + 1` more Supervisor decisions: `d` Executor turns
and the final FINISH decision. -/
theorem runLoop_execPhase (gen : List Message → String) :
    ∀ d s, lastName s = some "Executor" → s.plan ≠ [] →
      s.plan.length = s.current_step_index + d →
      ∃ f, runLoop gen (d + 1) s = some (f, d + 1) := by
  intro d
  induction d with
  | zero =>
    intro s hlast _ hlen
    have hroute : supervisor_next s = "FINISH" :=
      route_after_executor_done s hlast (by omega)
    exact ⟨supStep s, runLoop_succ_finish gen 0 s hroute⟩
  | succ d ih =>
    intro s hlast hne hlen
    have hlt : s.current_step_index < s.plan.length := by omega
    have hroute : supervisor_next s = "Executor" :=
      route_after_executor_more s hlast hlt
    have hg : ¬(s.plan = [] ∨ s.current_step_index ≥ s.plan.length) := by
      push_neg
      exact ⟨hne, hlt⟩
    have hshape := turn_executor_run_shape gen s hroute hg
    have h1 : lastName (turn gen s) = some "Executor" := by
      rw [hshape, lastName_concat _ s.messages _ rfl]
    have h2 : (turn gen s).plan ≠ [] := by rw [hshape]; exact hne
    have h3 : (turn gen s).plan.length = (turn gen s).current_step_index + d := by
      rw [hshape]
      simp only []
      omega
    obtain ⟨f, hf⟩ := ih (turn gen s) h1 h2 h3
    refine ⟨f, ?_⟩
    rw [runLoop_succ_cont gen (d + 1) s (by rw [hroute]; decide), hf]

/-! ### The claims -/

/-- C1: the Supervisor routing function, applied to any state, returns the
decision given by the spec's first-match rule: empty messages or an untagged
last message → Planner; last tagged Planner → Executor; last tagged
Executor → Executor when `current_step_index < len(plan)`, Finish when
`current_step_index ≥ len(plan)`; any other author-tag → Finish. -/
theorem c1_supervisor_routing (s : AgentState) : supervisor_next s = routeSpecRule s := by
  unfold supervisor_next routeSpecRule lastName
  by_cases hm : s.messages = []
  · simp [hm, nameFalsy]
  · simp [hm]

/-- C2: for every goal and every generation capability, the run terminates,
taking exactly `len(plan) + 2` Supervisor decisions (hence at most
`len(plan) + 2`), where `plan` is the plan the Planner turn produces. -/
theorem c2_run_terminates (gen : List Message → String) (goal : String) :
    ∃ f n, runLoop gen ((plannedSteps gen goal).length + 2) (initial_state goal)
      = some (f, n) ∧ n ≤ (plannedSteps gen goal).length + 2 := by
  obtain ⟨L', hL⟩ : ∃ L', (plannedSteps gen goal).length = L' + 1 := by
    have hne := plannedSteps_ne_nil gen goal
    cases h : plannedSteps gen goal with
    | nil => exact absurd h hne
    | cons a t => exact ⟨t.length, by simp [h]⟩
  have hroute0 : supervisor_next (initial_state goal) = "Planner" := route_initial goal
  have hshape1 := turn_planner_shape gen (initial_state goal) hroute0
  rw [resolve_goal_initial] at hshape1
  have h1last : lastName (turn gen (initial_state goal)) = some "Planner" := by
    rw [hshape1, lastName_concat _ (initial_state goal).messages _ rfl]
  have hroute1 : supervisor_next (turn gen (initial_state goal)) = "Executor" :=
    route_after_planner _ h1last
  have h1plan : (turn gen (initial_state goal)).plan = plannedSteps gen goal := by
    rw [hshape1]
  have h1idx : (turn gen (initial_state goal)).current_step_index = 0 := by
    rw [hshape1]
  have hg1 : ¬((turn gen (initial_state goal)).plan = [] ∨
      (turn gen (initial_state goal)).current_step_index ≥
        (turn gen (initial_state goal)).plan.length) := by
    push_neg
    constructor
    · rw [h1plan]
      exact plannedSteps_ne_nil gen goal
    · rw [h1plan, h1idx, hL]
      omega
  have hshape2 := turn_executor_run_shape gen _ hroute1 hg1
  have h2last : lastName (turn gen (turn gen (initial_state goal))) = some "Executor" := by
    rw [hshape2, lastName_concat _ (turn gen (initial_state goal)).messages _ rfl]
  have h2plan : (turn gen (turn gen (initial_state goal))).plan = plannedSteps gen goal := by
    rw [hshape2]
    exact h1plan
  have h2idx : (turn gen (turn gen (initial_state goal))).current_step_index = 1 := by
    rw [hshape2]
    show (turn gen (initial_state goal)).current_step_index + 1 = 1
    rw [h1idx]
  have h2len : (turn gen (turn gen (initial_state goal))).plan.length =
      (turn gen (turn gen (initial_state goal))).current_step_index + L' := by
    rw [h2plan, h2idx, hL]
    omega
  obtain ⟨f, hf⟩ := runLoop_execPhase gen L' _ h2last
    (by rw [h2plan]; exact plannedSteps_ne_nil gen goal) h2len
  refine ⟨f, (plannedSteps gen goal).length + 2, ?_, Nat.le_refl _⟩
  rw [hL, show L' + 1 + 2 = (L' + 2) + 1 by omega,
    runLoop_succ_cont gen (L' + 2) _ (by rw [hroute0]; decide),
    show L' + 2 = (L' + 1) + 1 by omega,
    runLoop_succ_cont gen (L' + 1) _ (by rw [hroute1]; decide),
    hf]

/-- C3 counterexample: on the spec's own merge test vector
(state log `["a"]`, Executor-style update carrying the full log
`["a","b"]`), the merge does not append the update's `execution_log` to the
state's — it replaces it — so the claimed append policy for
`execution_log` is false. -/
theorem c3_counterexample :
    (applyUpdate mergeCexState mergeCexUpdate).execution_log ≠
      mergeCexState.execution_log ++ ["a", "b"] := by decide

/-- C3 amended: the merge appends only `messages`; `execution_log`, like
`plan` and the scalar fields, is replaced when present and untouched when
absent; because the Executor returns the full accumulated log, each
executing Executor turn still nets exactly one appended log entry. -/
theorem c3_merge_policy :
    (∀ s u, (applyUpdate s u).messages = s.messages ++ u.messages.getD [] ∧
      (applyUpdate s u).user_goal = u.user_goal.getD s.user_goal ∧
      (applyUpdate s u).plan = u.plan.getD s.plan ∧
      (applyUpdate s u).current_step_index = u.current_step_index.getD s.current_step_index ∧
      (applyUpdate s u).execution_log = u.execution_log.getD s.execution_log ∧
      (applyUpdate s u).next_step = u.next_step.getD s.next_step ∧
      (applyUpdate s u).status = u.status.getD s.status) ∧
    (∀ gen s, ¬(s.plan = [] ∨ s.current_step_index ≥ s.plan.length) →
      (applyUpdate s (executor_node gen s)).execution_log
        = s.execution_log ++ [exec_entry gen s]) := by
  constructor
  · intro s u
    refine ⟨?_, rfl, rfl, rfl, rfl, rfl, rfl⟩
    show (match u.messages with
      | none => s.messages
      | some ms => s.messages ++ ms) = s.messages ++ u.messages.getD []
    cases u.messages <;> simp
  · intro gen s h
    rw [merge_executor_run gen s h]

/-- C3 witness: the amended merge policy evaluated at the concrete test
vector, and the one-entry growth on a state with a remaining step. -/
theorem c3_merge_policy_witness :
    (applyUpdate mergeCexState mergeCexUpdate).execution_log =
      mergeCexUpdate.execution_log.getD mergeCexState.execution_log ∧
    (applyUpdate execCexState (executor_node genDone execCexState)).execution_log
      = execCexState.execution_log ++ [exec_entry genDone execCexState] :=
  ⟨(c3_merge_policy.1 mergeCexState mergeCexUpdate).2.2.2.2.1,
    c3_merge_policy.2 genDone execCexState (by decide)⟩

/-- C4 counterexample: a Supervisor turn does not leave every field other
than `next_step` unchanged — on the initial state it overwrites `status`
("created" becomes "supervising"). -/
theorem c4_counterexample :
    (supStep (initial_state "g")).status ≠ (initial_state "g").status := by decide

/-- C4 amended: the Supervisor's decision is a pure function of the state,
and a Supervisor turn changes nothing except `next_step` (set to the
decision) and `status` (set to "supervising"). -/
theorem c4_supervisor_frame (s : AgentState) :
    (supStep s).messages = s.messages ∧
    (supStep s).user_goal = s.user_goal ∧
    (supStep s).plan = s.plan ∧
    (supStep s).current_step_index = s.current_step_index ∧
    (supStep s).execution_log = s.execution_log ∧
    (supStep s).next_step = supervisor_next s ∧
    (supStep s).status = "supervising" :=
  ⟨rfl, rfl, rfl, rfl, rfl, rfl, rfl⟩

set_option maxRecDepth 16384 in
/-- C5 counterexample: in the end-to-end scenario (goal "Set up
monitoring", mock capability), the final state's `status` is "supervising",
not "executing" — the final Supervisor decision IS taken and merged before
the run stops. -/
theorem c5_counterexample :
    ((runLoop mockGenC5 4 (initial_state "Set up monitoring")).map fun p => p.1.status)
        = some "supervising" ∧
      ((runLoop mockGenC5 4 (initial_state "Set up monitoring")).map fun p => p.1.status)
        ≠ some "executing" := by decide

set_option maxRecDepth 16384 in
/-- C5 amended: the end-to-end scenario terminates after 4 Supervisor
decisions with `plan == ["Install agent", "Configure dashboards"]`,
`current_step_index == 2`, `len(execution_log) == 2`, `next_step ==
"FINISH"` (the final Finish decision is taken) and `status ==
"supervising"`. -/
theorem c5_end_to_end :
    ((runLoop mockGenC5 4 (initial_state "Set up monitoring")).map fun p =>
        (p.1.plan, p.1.current_step_index, p.1.execution_log.length, p.1.status,
          p.1.next_step, p.2))
      = some (["Install agent", "Configure dashboards"], 2, 2, "supervising",
          "FINISH", 4) := by decide

/-- C6: in every state reachable during a run,
`0 ≤ current_step_index ≤ len(plan)`, and the index is non-decreasing from
each turn to the next. -/
theorem c6_index_bounds (gen : List Message → String) (goal : String) (n : Nat) :
    0 ≤ (stateAt gen goal n).current_step_index ∧
    (stateAt gen goal n).current_step_index ≤ (stateAt gen goal n).plan.length ∧
    (stateAt gen goal n).current_step_index ≤
      (stateAt gen goal (n + 1)).current_step_index :=
  ⟨Nat.zero_le _, (Inv_stateAt gen goal n).1, stateAt_mono gen goal n⟩

/-- C7: in every state reachable during a run (in particular after the
Planner turn), `len(execution_log) == current_step_index`; after N Executor
turns both equal N. -/
theorem c7_log_matches_index (gen : List Message → String) (goal : String) (n : Nat) :
    (stateAt gen goal n).execution_log.length =
      (stateAt gen goal n).current_step_index :=
  (Inv_stateAt gen goal n).2.1

/-- C8: whenever the step parser yields an empty list for the model
response, the Planner's returned update carries the fixed 4-step fallback
plan and `current_step_index == 0` — the parse failure is absorbed
locally. -/
theorem c8_planner_fallback (gen : List Message → String) (s : AgentState)
    (h : _parse_plan (gen (planner_messages (resolve_goal s))) = []) :
    (planner_node gen s).plan = some fallback_plan ∧
    (planner_node gen s).current_step_index = some 0 := by
  constructor
  · show some (plannedSteps gen (resolve_goal s)) = some fallback_plan
    unfold plannedSteps
    rw [h]
    simp
  · rfl

/-- C8 witness: a capability returning empty text parses to no steps, and
the Planner then returns the fallback plan with index 0. -/
theorem c8_planner_fallback_witness :
    _parse_plan (genEmpty (planner_messages (resolve_goal (initial_state "g")))) = [] ∧
    ((planner_node genEmpty (initial_state "g")).plan = some fallback_plan ∧
      (planner_node genEmpty (initial_state "g")).current_step_index = some 0) :=
  ⟨by decide, c8_planner_fallback genEmpty (initial_state "g") (by decide)⟩

/-- C9: whenever `plan` is empty or `current_step_index ≥ len(plan)`, the
Executor returns exactly `{status: "nothing_to_execute"}` (every other
field absent, independent of the generation capability), and merging it
changes only `status`. -/
theorem c9_executor_guard (gen : List Message → String) (s : AgentState)
    (h : s.plan = [] ∨ s.current_step_index ≥ s.plan.length) :
    executor_node gen s = nothing_update ∧
    applyUpdate s (executor_node gen s) = { s with status := "nothing_to_execute" } :=
  ⟨executor_node_guard gen s h, merge_executor_guard gen s h⟩

/-- C9 witness: on the initial state (empty plan) the Executor returns the
no-op update. -/
theorem c9_executor_guard_witness :
    ((initial_state "g").plan = [] ∨
      (initial_state "g").current_step_index ≥ (initial_state "g").plan.length) ∧
    executor_node genDone (initial_state "g") = nothing_update :=
  ⟨Or.inl rfl, (c9_executor_guard genDone (initial_state "g") (Or.inl rfl)).1⟩

/-- C10: from the first turn on, the last message always carries an
author-tag, the Supervisor never again decides Planner, and no later turn
changes `plan`. -/
theorem c10_plan_immutable (gen : List Message → String) (goal : String) (n : Nat)
    (h : 1 ≤ n) :
    supervisor_next (stateAt gen goal n) ≠ "Planner" ∧
    (stateAt gen goal (n + 1)).plan = (stateAt gen goal n).plan := by
  have htag := stateAt_tagged gen goal n h
  constructor
  · intro hc
    rw [(route_planner_iff _).1 hc] at htag
    cases htag
  · rw [stateAt_succ]
    by_cases hc : (stateAt gen goal n).next_step = "FINISH"
    · rw [if_pos hc]
    · rw [if_neg hc]
      exact turn_plan_of_tagged gen _ htag

/-- C10 witness: the plan-immutability statement applied after the first
turn of a concrete run. -/
theorem c10_plan_immutable_witness :
    1 ≤ 1 ∧ (supervisor_next (stateAt genDone "g" 1) ≠ "Planner" ∧
      (stateAt genDone "g" 2).plan = (stateAt genDone "g" 1).plan) :=
  ⟨Nat.le_refl 1, c10_plan_immutable genDone "g" 1 (Nat.le_refl 1)⟩

end PlannerExecutor
